import Mathlib

/-!
# SpectXEngine in-process resource management core: shallow embedding

This file embeds the three components of the repository's core in Lean 4 and
settles the specification claims about them:

* `InMemoryCache` — packages/core/src/cache/in-memory.ts
* `RateLimiter`   — the rate limiter source (RateLimiter.isAllowed and friends)
* `JobQueue`      — the job queue source (enqueue / process / processJob /
  moveToDeadLetter)

Modelling conventions:

* A JavaScript `Map<string, B>` is an association list `List (String × B)`
  whose operations preserve JS `Map` semantics: `set` on an existing key
  updates the value in place keeping the key's position in iteration order,
  `set` on a fresh key appends at the end, iteration order is list order and
  `keys().next().value` is the head key.
* Timestamps (`Date.now()` values) and durations are `Nat` milliseconds.
* A fallible TS return of `T | null` on the control-flow level becomes
  `Option`; the one place where a stored `null` value matters is modelled by
  instantiating the cache's value type at `Option Nat` (`none` = JS `null`)
  and flattening, exactly as TS's `T | null` does.
* The job queue's asynchronous drain loop becomes a fuel-indexed recursion
  that emits an event trace (handler invocations, backoff waits, requeues,
  dead-letter moves); `await this.delay(ms)` is the `waited ms` event.
-/

namespace SpectX

/-! ## JS `Map` as an association list -/

/-- `Map.get`: first binding of the key, if any. -/
def mget {B : Type} : List (String × B) → String → Option B
  | [], _ => none
  | (k', b) :: rest, k => if k' = k then some b else mget rest k

/-- `Map.set`: update in place when the key is present (keeping its position
in iteration order), otherwise append at the end — JS `Map` semantics. -/
def mset {B : Type} : List (String × B) → String → B → List (String × B)
  | [], k, b => [(k, b)]
  | (k', b') :: rest, k, b =>
      if k' = k then (k, b) :: rest else (k', b') :: mset rest k b

/-- `Map.delete`: remove the binding of the key. -/
def mdel {B : Type} : List (String × B) → String → List (String × B)
  | [], _ => []
  | (k', b') :: rest, k => if k' = k then rest else (k', b') :: mdel rest k

/-! ## TTL cache (packages/core/src/cache/in-memory.ts) -/

/-- `interface CacheEntry<T> { value: T; expiresAt: number }`. -/
structure CacheEntry (V : Type) where
  value : V
  expiresAt : Nat
deriving DecidableEq

/-- `class InMemoryCache` state: the backing `Map` and the capacity. -/
structure InMemoryCache (V : Type) where
  store : List (String × CacheEntry V)
  maxSize : Nat
deriving DecidableEq

/-- `constructor(options = {})` with `this.maxSize = options.maxSize || 1000`:
`0` and an absent field are both falsy in JS, so both yield `1000`. -/
def mkCache {V : Type} (maxSizeOpt : Option Nat) : InMemoryCache V :=
  { store := [],
    maxSize := match maxSizeOpt with
      | none => 1000
      | some m => if m = 0 then 1000 else m }

/-- `set(key, value, ttl)` at clock value `now`.  When at capacity the source
reads `const firstKey = this.store.keys().next().value` and evicts only under
the truthiness test `if (firstKey)`: an `undefined` (empty map) or an
empty-string first key skips the eviction. -/
def InMemoryCache.set {V : Type} (c : InMemoryCache V) (k : String) (v : V)
    (ttl : Nat) (now : Nat) : InMemoryCache V :=
  let c1 :=
    if c.store.length ≥ c.maxSize then
      match c.store with
      | [] => c
      | (fk, _) :: _ =>
          if fk = "" then c else { c with store := mdel c.store fk }
    else c
  { c1 with store := mset c1.store k ⟨v, now + ttl⟩ }

/-- `get(key)` at clock value `now`: `none` models the two `return null`
paths (missing key, lazily-expired key — the latter also deletes); otherwise
the stored value is returned.  The second component is the state after the
call (lazy expiry mutates the store). -/
def InMemoryCache.get {V : Type} (c : InMemoryCache V) (k : String)
    (now : Nat) : Option V × InMemoryCache V :=
  match mget c.store k with
  | none => (none, c)
  | some e =>
      if now > e.expiresAt then (none, { c with store := mdel c.store k })
      else (some e.value, c)

/-- `size()`. -/
def InMemoryCache.size {V : Type} (c : InMemoryCache V) : Nat :=
  c.store.length

/-- The TS-observable result of `get` for a cache whose values may be the JS
`null` (`Option Nat`, with `none` = `null`): TS types `get` as `T | null`,
so a stored `null` and the miss result collapse into the same observation. -/
def InMemoryCache.jsGet (c : InMemoryCache (Option Nat)) (k : String)
    (now : Nat) : Option Nat :=
  ((c.get k now).1).join

/-- `has(key) { return this.get(key) !== null }` over JS-nullable values:
the comparison sees the flattened `T | null` result. -/
def InMemoryCache.jsHas (c : InMemoryCache (Option Nat)) (k : String)
    (now : Nat) : Bool :=
  (c.jsGet k now).isSome

/-! ## Rate limiter (`RateLimiter` with sliding-window admission) -/

/-- `interface RateLimitConfig`. The `adaptive` flag is carried but never
read by the algorithm, as in the source. -/
structure RateLimitConfig where
  windowMs : Nat
  maxRequests : Nat
  adaptive : Bool
deriving DecidableEq

/-- `interface RateLimitEntry { requests: number[]; lastReset: number }`. -/
structure RateLimitEntry where
  requests : List Nat
  lastReset : Nat
deriving DecidableEq

/-- `class RateLimiter` state: the per-identifier `Map` plus configuration. -/
structure RateLimiter where
  limits : List (String × RateLimitEntry)
  config : RateLimitConfig
deriving DecidableEq

/-- `isAllowed(identifier)` at clock value `now`.  The source mutates the
entry object held by the map, so the filtered (and, on admission, extended)
entry is what the map holds afterwards in every branch; the model writes it
back explicitly.  JS subtraction on monotone clock values matches truncated
`Nat` subtraction at every comparison performed here. -/
def RateLimiter.isAllowed (rl : RateLimiter) (identifier : String)
    (now : Nat) : Bool × RateLimiter :=
  let e0 : RateLimitEntry :=
    match mget rl.limits identifier with
    | some e =>
        if now - e.lastReset > rl.config.windowMs then ⟨[], now⟩ else e
    | none => ⟨[], now⟩
  let e1 : RateLimitEntry :=
    ⟨e0.requests.filter (fun t => decide (now - t < rl.config.windowMs)),
     e0.lastReset⟩
  let e2 : RateLimitEntry := ⟨e1.requests ++ [now], e1.lastReset⟩
  if e1.requests.length ≥ rl.config.maxRequests then
    (false, { rl with limits := mset rl.limits identifier e1 })
  else
    (true, { rl with limits := mset rl.limits identifier e2 })

/-! ## Job queue (`JobQueue` with retry, backoff and dead-letter) -/

/-- `interface Job`.  `payload` is an opaque blob, abstracted as `Nat`;
`createdAt` is a `Nat` timestamp; `processedAt` (only ever set on success,
on a job the loop then drops) is abstracted to a flag; `error` is set when
the job is moved to the dead-letter sink. -/
structure Job where
  id : String
  type : String
  payload : Nat
  attempts : Nat
  maxAttempts : Nat
  createdAt : Nat
  processedAt : Bool
  error : Option String
deriving DecidableEq

/-- A handler's behaviour: given the job's payload and the number of calls
this handler has already received for the job (the pre-increment `attempts`),
it either resolves or rejects with the error message the queue would compute
(`error instanceof Error ? error.message : 'Unknown error'`).  Indexing by
the call count models an effectful handler whose outcome may differ per
invocation; any thrown value maps to some `String` message, including the
empty one for `new Error("")`. -/
def Handler : Type := Nat → Nat → Except String Unit

/-- `this.handlers`: the per-type handler `Map`. -/
def HandlerMap : Type := List (String × Handler)

/-- `registerHandler(type, handler)`: re-registering overwrites. -/
def registerHandler (hs : HandlerMap) (ty : String) (h : Handler) :
    HandlerMap :=
  mset hs ty h

/-- The queue's mutable state: the pending queue and the dead-letter sink.
The `processing` re-entrancy flag needs no counterpart: the model runs the
single drain loop explicitly. -/
structure QState where
  queue : List Job
  dlq : List Job
deriving DecidableEq

/-- Observable events of one processing step: handler invocation, backoff
wait (`await this.delay(ms)`), re-queue, successful completion, move to the
dead-letter sink with its error message. -/
inductive QEvent where
  | invoked (id : String)
  | waited (ms : Nat)
  | requeued (id : String)
  | completed (id : String)
  | deadLettered (id : String) (msg : String)
deriving DecidableEq

/-- `enqueue(type, payload, maxAttempts)`: appends a fresh job (attempts 0,
no error) at the tail.  The generated id and `Date.now()` value are taken as
parameters. -/
def enqueue (st : QState) (idStr ty : String)
    (payload createdAt maxAttempts : Nat) : QState :=
  { st with queue :=
      st.queue ++ [⟨idStr, ty, payload, 0, maxAttempts, createdAt, false, none⟩] }

/-- `private moveToDeadLetter(job, error)`: stamp the message, push onto the
dead-letter sink. -/
def moveToDeadLetter (st : QState) (j : Job) (msg : String) : QState :=
  { st with dlq := st.dlq ++ [{ j with error := some msg }] }

/-- `private async processJob(job)` as a state transformer over the queue
state (the pending queue already has the job removed, as `process()` shifts
it before the call), returning the events of this step.  Mirrors the source:
missing handler → immediate dead-letter; otherwise increment `attempts`,
invoke; on rejection either dead-letter (`attempts >= maxAttempts`) or wait
`2 ^ attempts * 1000` ms and push the job back at the tail. -/
def processJob (hs : HandlerMap) (st : QState) (j : Job) :
    QState × List QEvent :=
  match mget hs j.type with
  | none =>
      (moveToDeadLetter st j "No handler registered",
       [.deadLettered j.id "No handler registered"])
  | some h =>
      let j1 : Job := { j with attempts := j.attempts + 1 }
      match h j.payload j.attempts with
      | .ok _ => (st, [.invoked j.id, .completed j.id])
      | .error msg =>
          if j1.attempts ≥ j1.maxAttempts then
            (moveToDeadLetter st j1 msg,
             [.invoked j.id, .deadLettered j.id msg])
          else
            ({ st with queue := st.queue ++ [j1] },
             [.invoked j.id, .waited (2 ^ j1.attempts * 1000),
              .requeued j.id])

/-- `private async process()`: `while (this.queue.length > 0) { const job =
this.queue.shift(); await this.processJob(job) }`, fuel-indexed to stay a
total function; with fuel at least the total work the loop drains fully. -/
def drain (hs : HandlerMap) : Nat → QState → QState × List QEvent
  | 0, st => (st, [])
  | fuel + 1, st =>
      match st.queue with
      | [] => (st, [])
      | j :: rest =>
          let r1 := processJob hs ⟨rest, st.dlq⟩ j
          let r2 := drain hs fuel r1.1
          (r2.1, r1.2 ++ r2.2)

/-- Number of handler invocations recorded in a trace. -/
def countInvoked (evs : List QEvent) : Nat :=
  (evs.filter fun e => match e with | .invoked _ => true | _ => false).length

/-- Whether a trace contains a backoff wait. -/
def hasWait (evs : List QEvent) : Bool :=
  evs.any fun e => match e with | .waited _ => true | _ => false

/-! ## Concrete fixtures for the per-claim counterexamples and witnesses -/

/-- Always-throwing handler used in the claim C1 counterexample; it models a
handler that rejects every invocation with `new Error("")`. -/
def c1xHandler : Handler := fun _ _ => Except.error ""

/-- Handler registry for the claim C1 counterexample. -/
def c1xHs : HandlerMap := [("t", c1xHandler)]

/-- Full drain of a job enqueued with `maxAttempts = 0` under `c1xHs`. -/
def c1xRun : QState × List QEvent :=
  drain c1xHs 2 (enqueue ⟨[], []⟩ "j" "t" 0 0 0)

/-- Always-throwing handler used in the claim C1 witness. -/
def c1wHandler : Handler := fun _ _ => Except.error "boom"

/-- Handler registry for the claim C1 witness. -/
def c1wHs : HandlerMap := [("t", c1wHandler)]

/-- Always-throwing handler used in the claim C2 witness. -/
def c2wHandler : Handler := fun _ _ => Except.error "nope"

/-- Handler registry for the claim C2 witness. -/
def c2wHs : HandlerMap := [("t", c2wHandler)]

/-- Fresh job of type `"t"` processed in the claim C2 witness. -/
def c2wJob : Job := ⟨"a", "t", 0, 0, 3, 0, false, none⟩

/-- Job enqueued after `c2wJob`, pending while it is processed. -/
def c2wOther : Job := ⟨"b", "u", 0, 0, 3, 1, false, none⟩

/-- Job used in the claim C3 witness; no handler for its type exists. -/
def c3wJob : Job := ⟨"c", "x", 0, 0, 3, 0, false, none⟩

/-- Claim C4 failing run: capacity-1 cache, insert key `""`, then key
`"a"`.  The eviction guard `if (firstKey)` sees the falsy empty string and
skips eviction, so the store grows past `maxSize`. -/
def c4Run : InMemoryCache Nat :=
  ((mkCache (some 1) : InMemoryCache Nat).set "" 1 3600000 0).set "a" 2 3600000 0

/-- Claim C6 counterexample fixture: capacity-2 cache filled with `"a"` then
`"b"` (at capacity, insertion order `["a", "b"]`). -/
def c6Before : InMemoryCache Nat :=
  ((mkCache (some 2) : InMemoryCache Nat).set "a" 1 3600000 0).set "b" 2 3600000 0

/-- `set` on the already-present, insertion-oldest key `"a"` while at
capacity. -/
def c6After : InMemoryCache Nat := c6Before.set "a" 9 3600000 5

/-! ## Evaluation lemmas for the job queue -/

theorem countInvoked_append (a b : List QEvent) :
    countInvoked (a ++ b) = countInvoked a + countInvoked b := by
  simp [countInvoked, List.filter_append]

theorem pj_no_handler (hs : HandlerMap) (st : QState) (j : Job)
    (hh : mget hs j.type = none) :
    processJob hs st j =
      (⟨st.queue, st.dlq ++ [{ j with error := some "No handler registered" }]⟩,
       [.deadLettered j.id "No handler registered"]) := by
  unfold processJob
  rw [hh]
  rfl

theorem pj_fail_dead (hs : HandlerMap) (st : QState) (j : Job) (h : Handler)
    (m : String) (hh : mget hs j.type = some h)
    (hfail : h j.payload j.attempts = Except.error m)
    (hge : j.attempts + 1 ≥ j.maxAttempts) :
    processJob hs st j =
      (⟨st.queue, st.dlq ++ [{ j with attempts := j.attempts + 1, error := some m }]⟩,
       [.invoked j.id, .deadLettered j.id m]) := by
  unfold processJob
  rw [hh]
  dsimp only
  rw [hfail]
  dsimp only
  rw [if_pos hge]
  rfl

theorem pj_fail_requeue (hs : HandlerMap) (st : QState) (j : Job) (h : Handler)
    (m : String) (hh : mget hs j.type = some h)
    (hfail : h j.payload j.attempts = Except.error m)
    (hlt : j.attempts + 1 < j.maxAttempts) :
    processJob hs st j =
      (⟨st.queue ++ [{ j with attempts := j.attempts + 1 }], st.dlq⟩,
       [.invoked j.id, .waited (2 ^ (j.attempts + 1) * 1000),
        .requeued j.id]) := by
  unfold processJob
  rw [hh]
  dsimp only
  rw [hfail]
  dsimp only
  rw [if_neg (by omega)]

theorem drain_one (hs : HandlerMap) (fuel : Nat) (j : Job) (dlq0 : List Job) :
    drain hs (fuel + 1) ⟨[j], dlq0⟩ =
      ((drain hs fuel (processJob hs ⟨[], dlq0⟩ j).1).1,
       (processJob hs ⟨[], dlq0⟩ j).2 ++
         (drain hs fuel (processJob hs ⟨[], dlq0⟩ j).1).2) := rfl

theorem drain_empty (hs : HandlerMap) (fuel : Nat) (st : QState)
    (hq : st.queue = []) : drain hs fuel st = (st, []) := by
  cases fuel with
  | zero => rfl
  | succ f =>
      unfold drain
      rw [hq]

/-- Driving the loop on a single job whose handler rejects every invocation:
with `k ≥ 1` attempts remaining and fuel at least `k`, the loop invokes the
handler exactly `k` more times and ends with the job in the dead-letter sink
carrying `attempts = maxAttempts` and the final rejection's message. -/
theorem drain_single_always_fail (hs : HandlerMap) (h : Handler)
    (m : Nat → String) :
    ∀ (k fuel : Nat) (dlq0 : List Job) (j : Job), 1 ≤ k → k ≤ fuel →
      mget hs j.type = some h →
      (∀ i, h j.payload i = Except.error (m i)) →
      j.maxAttempts = j.attempts + k →
      (drain hs fuel ⟨[j], dlq0⟩).1 =
        ⟨[], dlq0 ++ [{ j with attempts := j.attempts + k, error := some (m (j.attempts + k - 1)) }]⟩ ∧
      countInvoked (drain hs fuel ⟨[j], dlq0⟩).2 = k := by
  intro k
  induction k with
  | zero => intro fuel dlq0 j h1; exact absurd h1 (by omega)
  | succ k ih =>
      intro fuel dlq0 j _ hf hh hfail hmax
      obtain ⟨f, rfl⟩ : ∃ f, fuel = f + 1 := ⟨fuel - 1, by omega⟩
      rw [drain_one]
      rcases Nat.eq_zero_or_pos k with hk | hk
      · subst hk
        rw [pj_fail_dead hs ⟨[], dlq0⟩ j h (m j.attempts) hh (hfail j.attempts) (by omega)]
        rw [drain_empty hs f _ rfl]
        refine ⟨?_, rfl⟩
        have : j.attempts + 1 - 1 = j.attempts := by omega
        rw [this]
      · rw [pj_fail_requeue hs ⟨[], dlq0⟩ j h (m j.attempts) hh (hfail j.attempts) (by omega)]
        have hstep := ih f dlq0 { j with attempts := j.attempts + 1 }
          (by omega) (by omega) hh hfail (by dsimp only; omega)
        dsimp only at hstep ⊢
        simp only [List.nil_append] at hstep ⊢
        have harith : j.attempts + 1 + k = j.attempts + (k + 1) := by omega
        rw [harith] at hstep
        refine ⟨hstep.1, ?_⟩
        rw [countInvoked_append, hstep.2]
        have hone : countInvoked [QEvent.invoked j.id, QEvent.waited (2 ^ (j.attempts + 1) * 1000), QEvent.requeued j.id] = 1 := rfl
        omega

/-! ## Claim C1 -/

/-- Claim C1, counterexample.  A job enqueued with `maxAttempts = n = 0`
whose handler always throws `new Error("")` has its handler invoked once —
more than `n` times — and lands in the dead-letter sink with
`attempts = 1 ≠ 0 = maxAttempts` and an *empty* error message: every part of
the claim's conclusion fails at this input. -/
theorem claim_C1_counterexample :
    countInvoked c1xRun.2 = 1 ∧
    ¬countInvoked c1xRun.2 ≤ 0 ∧
    c1xRun.1.dlq.map Job.attempts = [1] ∧
    c1xRun.1.dlq.map Job.maxAttempts = [0] ∧
    c1xRun.1.dlq.map Job.error = [some ""] :=
  ⟨rfl, by decide, rfl, rfl, rfl⟩

/-- Claim C1 (amended): for every job enqueued with `maxAttempts = n ≥ 1`
whose handler throws on every invocation, the handler is invoked exactly `n`
times (hence at most `n` and at least once), and the job ends in the
dead-letter sink with `attempts = maxAttempts` and error equal to the final
failure's message; the pending queue is empty afterwards and stays so (the
job never re-enters it). -/
theorem claim_C1_retry_to_dead_letter
    (n : Nat) (hn : 1 ≤ n) (hs : HandlerMap) (h : Handler) (m : Nat → String)
    (idStr ty : String) (p c0 fuel : Nat)
    (hh : mget hs ty = some h)
    (hfail : ∀ i, h p i = Except.error (m i))
    (hfuel : n ≤ fuel) :
    (drain hs fuel (enqueue ⟨[], []⟩ idStr ty p c0 n)).1 =
      ⟨[], [⟨idStr, ty, p, n, n, c0, false, some (m (n - 1))⟩]⟩ ∧
    countInvoked (drain hs fuel (enqueue ⟨[], []⟩ idStr ty p c0 n)).2 = n ∧
    1 ≤ countInvoked (drain hs fuel (enqueue ⟨[], []⟩ idStr ty p c0 n)).2 ∧
    (∀ f, drain hs f (drain hs fuel (enqueue ⟨[], []⟩ idStr ty p c0 n)).1 =
      ((drain hs fuel (enqueue ⟨[], []⟩ idStr ty p c0 n)).1, [])) := by
  have h0 : enqueue ⟨[], []⟩ idStr ty p c0 n =
      ⟨[⟨idStr, ty, p, 0, n, c0, false, none⟩], []⟩ := rfl
  rw [h0]
  have hmain := drain_single_always_fail hs h m n fuel []
    ⟨idStr, ty, p, 0, n, c0, false, none⟩ hn hfuel hh hfail (by dsimp only; omega)
  dsimp only at hmain
  simp only [Nat.zero_add, List.nil_append] at hmain
  refine ⟨hmain.1, hmain.2, by omega, ?_⟩
  intro f
  exact drain_empty hs f _ (by rw [hmain.1])

/-- Claim C1, witness: the amended theorem at `n = 2` and the handler that
always rejects with message "boom". -/
theorem claim_C1_witness :
    (drain c1wHs 2 (enqueue ⟨[], []⟩ "j" "t" 0 0 2)).1 =
      ⟨[], [⟨"j", "t", 0, 2, 2, 0, false, some "boom"⟩]⟩ ∧
    countInvoked (drain c1wHs 2 (enqueue ⟨[], []⟩ "j" "t" 0 0 2)).2 = 2 := by
  have hmain := claim_C1_retry_to_dead_letter 2 (by omega) c1wHs c1wHandler
    (fun _ => "boom") "j" "t" 0 0 2 rfl (fun _ => rfl) (by omega)
  exact ⟨hmain.1, hmain.2.1⟩

/-! ## Claim C2 -/

/-- Claim C2: when a job's handler fails on attempt `k` (the attempt count
just completed, i.e. the incremented `attempts`) and `k < maxAttempts`, the
step waits exactly `2 ^ k * 1000` ms and re-appends the job at the tail of
the pending queue, behind everything currently pending — in particular
behind jobs enqueued after it. -/
theorem claim_C2_backoff_and_tail_requeue
    (hs : HandlerMap) (st : QState) (j : Job) (h : Handler) (m : String)
    (k : Nat) (hh : mget hs j.type = some h) (hk : k = j.attempts + 1)
    (hfail : h j.payload j.attempts = Except.error m)
    (hlt : k < j.maxAttempts) :
    processJob hs st j =
      (⟨st.queue ++ [{ j with attempts := k }], st.dlq⟩,
       [.invoked j.id, .waited (2 ^ k * 1000), .requeued j.id]) := by
  subst hk
  exact pj_fail_requeue hs st j h m hh hfail hlt

/-- Claim C2, witness: first failure of a `maxAttempts = 3` job waits
`2 ^ 1 * 1000 = 2000` ms and requeues it behind the later-enqueued job. -/
theorem claim_C2_witness :
    processJob c2wHs ⟨[c2wOther], []⟩ c2wJob =
      (⟨[c2wOther, ⟨"a", "t", 0, 1, 3, 0, false, none⟩], []⟩,
       [.invoked "a", .waited 2000, .requeued "a"]) :=
  claim_C2_backoff_and_tail_requeue c2wHs ⟨[c2wOther], []⟩ c2wJob c2wHandler
    "nope" 1 rfl rfl rfl (by decide)

/-! ## Claim C3 -/

/-- Claim C3: a job whose type has no registered handler at processing time
moves straight to the dead-letter sink with `attempts` still `0`, error
message "No handler registered", no handler invocation and no backoff
wait. -/
theorem claim_C3_no_handler_dead_letter
    (hs : HandlerMap) (st : QState) (j : Job)
    (hh : mget hs j.type = none) (ha : j.attempts = 0) :
    processJob hs st j =
      (⟨st.queue, st.dlq ++ [{ j with error := some "No handler registered" }]⟩,
       [.deadLettered j.id "No handler registered"]) ∧
    ({ j with error := some "No handler registered" } : Job).attempts = 0 ∧
    countInvoked (processJob hs st j).2 = 0 ∧
    hasWait (processJob hs st j).2 = false := by
  have hp := pj_no_handler hs st j hh
  refine ⟨hp, by dsimp only; exact ha, ?_, ?_⟩ <;> rw [hp] <;> rfl

/-- Claim C3, witness: empty handler registry, fresh job. -/
theorem claim_C3_witness :
    processJob [] ⟨[], []⟩ c3wJob =
      (⟨[], [⟨"c", "x", 0, 0, 3, 0, false, some "No handler registered"⟩]⟩,
       [.deadLettered "c" "No handler registered"]) ∧
    countInvoked (processJob [] ⟨[], []⟩ c3wJob).2 = 0 :=
  ⟨(claim_C3_no_handler_dead_letter [] ⟨[], []⟩ c3wJob rfl rfl).1,
   (claim_C3_no_handler_dead_letter [] ⟨[], []⟩ c3wJob rfl rfl).2.2.1⟩

/-! ## Association-list lemmas for the cache claims -/

theorem mget_mset_self {B : Type} (l : List (String × B)) (k : String)
    (b : B) : mget (mset l k b) k = some b := by
  induction l with
  | nil => simp [mset, mget]
  | cons p rest ih =>
      obtain ⟨k', b'⟩ := p
      by_cases hk : k' = k
      · subst hk
        simp [mset, mget]
      · simp [mset, mget, hk, ih]

theorem keys_mset_of_mem {B : Type} (l : List (String × B)) (k : String)
    (b : B) (hmem : k ∈ l.map Prod.fst) :
    (mset l k b).map Prod.fst = l.map Prod.fst := by
  induction l with
  | nil => simp at hmem
  | cons p rest ih =>
      obtain ⟨k', b'⟩ := p
      by_cases hk : k' = k
      · subst hk
        simp [mset]
      · have hrest : k ∈ rest.map Prod.fst := by
          simp only [List.map_cons, List.mem_cons] at hmem
          rcases hmem with h | h
          · exact absurd h.symm hk
          · exact h
        simp [mset, hk, ih hrest]

/-! ## Claim C4 -/

/-- Claim C4: failing run.  Inserting `maxSize + 1 = 2` distinct keys into a
fresh capacity-1 cache whose first key is the empty string performs **no**
eviction — `if (firstKey)` treats the falsy `""` as absent — and the
physical store size reaches 2, exceeding `maxSize = 1`.  This violates the
claimed invariant (size never exceeds `maxSize`; at capacity the
insertion-oldest entry is evicted) at which point the code contradicts its
own comment "Evict oldest if at capacity". -/
theorem claim_C4_failing_run :
    c4Run.size = 2 ∧ c4Run.maxSize = 1 ∧ c4Run.maxSize < c4Run.size ∧
    c4Run.store.map Prod.fst = ["", "a"] := by
  refine ⟨rfl, rfl, by decide, by decide⟩

/-! ## Claim C6 -/

/-- Claim C6, counterexample.  With a capacity-2 cache at capacity holding
`["a", "b"]` in insertion order, a `set` on the already-present,
insertion-oldest key `"a"` first evicts `"a"` (the capacity branch runs even
though the key is already present) and then re-inserts it at the tail: its
position in the eviction order changes from head to tail. -/
theorem claim_C6_counterexample :
    c6Before.store.map Prod.fst = ["a", "b"] ∧
    c6Before.store.length = c6Before.maxSize ∧
    c6After.store.map Prod.fst = ["b", "a"] := by
  refine ⟨by decide, by decide, by decide⟩

/-- Claim C6 (amended): a `set` on a key already present does not change the
key's position in the eviction order — the key sequence is left unchanged,
or merely loses its evicted head — provided the store is below capacity or
the key is not the insertion-oldest one; the key's value and expiry are
replaced. -/
theorem claim_C6_amended {V : Type} (c : InMemoryCache V) (k : String)
    (v : V) (ttl now : Nat)
    (hmem : k ∈ c.store.map Prod.fst)
    (hok : c.store.length < c.maxSize ∨ (c.store.map Prod.fst).head? ≠ some k) :
    ((c.set k v ttl now).store.map Prod.fst = c.store.map Prod.fst ∨
     (c.set k v ttl now).store.map Prod.fst = (c.store.map Prod.fst).tail) ∧
    mget (c.set k v ttl now).store k = some ⟨v, now + ttl⟩ := by
  obtain ⟨store, maxSize⟩ := c
  dsimp only at hmem hok ⊢
  unfold InMemoryCache.set
  dsimp only
  cases store with
  | nil => simp at hmem
  | cons p rest =>
      obtain ⟨fk, fe⟩ := p
      by_cases hcap : ((fk, fe) :: rest : List (String × CacheEntry V)).length ≥ maxSize
      · rw [if_pos hcap]
        dsimp only
        have hfk : fk ≠ k := by
          rcases hok with h | h
          · omega
          · simpa using h
        by_cases hemp : fk = ""
        · rw [if_pos hemp]
          dsimp only
          exact ⟨Or.inl (keys_mset_of_mem _ k _ hmem), mget_mset_self _ k _⟩
        · rw [if_neg hemp]
          dsimp only
          have hdel : mdel ((fk, fe) :: rest) fk = rest := by simp [mdel]
          rw [hdel]
          have hrest : k ∈ rest.map Prod.fst := by
            simp only [List.map_cons, List.mem_cons] at hmem
            rcases hmem with h | h
            · exact absurd h.symm hfk
            · exact h
          refine ⟨Or.inr ?_, mget_mset_self _ k _⟩
          rw [keys_mset_of_mem _ k _ hrest]
          rfl
      · rw [if_neg hcap]
        dsimp only
        exact ⟨Or.inl (keys_mset_of_mem _ k _ hmem), mget_mset_self _ k _⟩

/-- Claim C6, witness: below capacity, a `set` on the present key `"a"`
keeps the key order `["a", "b"]` and replaces value and expiry. -/
theorem claim_C6_witness :
    (((⟨[("a", ⟨1, 10⟩), ("b", ⟨2, 10⟩)], 3⟩ : InMemoryCache Nat).set "a" 9 7 5).store.map Prod.fst = ["a", "b"] ∨
     ((⟨[("a", ⟨1, 10⟩), ("b", ⟨2, 10⟩)], 3⟩ : InMemoryCache Nat).set "a" 9 7 5).store.map Prod.fst = ["b"]) ∧
    mget ((⟨[("a", ⟨1, 10⟩), ("b", ⟨2, 10⟩)], 3⟩ : InMemoryCache Nat).set "a" 9 7 5).store "a" = some ⟨9, 12⟩ :=
  claim_C6_amended (⟨[("a", ⟨1, 10⟩), ("b", ⟨2, 10⟩)], 3⟩ : InMemoryCache Nat)
    "a" 9 7 5 (by decide) (Or.inl (by decide))

/-! ## Claim C8 -/

/-- Claim C8: `get` returns absent (`none`) exactly when the key is not
stored or the clock strictly exceeds the entry's `expiresAt`; in the expired
case the entry is also deleted; in every other case the stored value is
returned.  Concretely, after `set("k", v, ttl = 10)` on a fresh cache at
time 0, a read at 5 ms yields `v` and a read at 11 ms yields absent. -/
theorem claim_C8_get_contract {V : Type} (c : InMemoryCache V) (k : String)
    (now : Nat) :
    ((c.get k now).1 = none ↔
      mget c.store k = none ∨
        ∃ e, mget c.store k = some e ∧ now > e.expiresAt) ∧
    (∀ e, mget c.store k = some e → now > e.expiresAt →
      ((c.get k now).2).store = mdel c.store k) ∧
    (∀ e, mget c.store k = some e → ¬now > e.expiresAt →
      (c.get k now).1 = some e.value) ∧
    (∀ (v : V) (M : Nat),
      (((⟨[], M⟩ : InMemoryCache V).set k v 10 0).get k 5).1 = some v ∧
      (((⟨[], M⟩ : InMemoryCache V).set k v 10 0).get k 11).1 = none) := by
  have hfresh : ∀ (v : V) (M : Nat),
      (⟨[], M⟩ : InMemoryCache V).set k v 10 0 = ⟨[(k, ⟨v, 10⟩)], M⟩ := by
    intro v M
    unfold InMemoryCache.set
    by_cases hM : ([] : List (String × CacheEntry V)).length ≥ M
    · rw [if_pos hM]
      rfl
    · rw [if_neg hM]
      rfl
  refine ⟨?_, ?_, ?_, ?_⟩
  · unfold InMemoryCache.get
    cases hm : mget c.store k with
    | none => simp
    | some e =>
        by_cases hexp : now > e.expiresAt
        · simp [hexp]
        · simp [hexp]
  · intro e he hexp
    unfold InMemoryCache.get
    rw [he]
    dsimp only
    rw [if_pos hexp]
  · intro e he hexp
    unfold InMemoryCache.get
    rw [he]
    dsimp only
    rw [if_neg hexp]
  · intro v M
    rw [hfresh v M]
    unfold InMemoryCache.get
    simp [mget]

/-- Claim C8, witness: the scenario part at `v = 42` on a fresh capacity-5
cache, plus the lazy-deletion conclusion at a stored, expired entry. -/
theorem claim_C8_witness :
    ((((⟨[], 5⟩ : InMemoryCache Nat).set "k" 42 10 0).get "k" 5).1 = some 42 ∧
     (((⟨[], 5⟩ : InMemoryCache Nat).set "k" 42 10 0).get "k" 11).1 = none) ∧
    (((⟨[("k", ⟨7, 10⟩)], 5⟩ : InMemoryCache Nat).get "k" 11).2).store =
      mdel [("k", ⟨7, 10⟩)] "k" :=
  ⟨(claim_C8_get_contract (⟨[], 5⟩ : InMemoryCache Nat) "k" 0).2.2.2 42 5,
   (claim_C8_get_contract (⟨[("k", ⟨7, 10⟩)], 5⟩ : InMemoryCache Nat) "k" 11).2.1
     ⟨7, 10⟩ rfl (by decide)⟩

/-! ## Claim C9 -/

/-- Claim C9: constructing the cache with `maxSize` explicitly `0` falls
back to the default capacity 1000 (`options.maxSize || 1000`, `0` being
falsy), so it is not a zero-capacity cache: a subsequent `set` stores the
entry and `size()` returns 1. -/
theorem claim_C9_zero_maxSize_default (k : String) (v ttl now : Nat) :
    (mkCache (some 0) : InMemoryCache Nat).maxSize = 1000 ∧
    ((mkCache (some 0) : InMemoryCache Nat).set k v ttl now).size = 1 ∧
    mget ((mkCache (some 0) : InMemoryCache Nat).set k v ttl now).store k =
      some ⟨v, now + ttl⟩ := by
  have hset : (mkCache (some 0) : InMemoryCache Nat).set k v ttl now =
      ⟨[(k, ⟨v, now + ttl⟩)], 1000⟩ := by
    unfold mkCache InMemoryCache.set
    rw [if_neg (by decide)]
    rfl
  refine ⟨rfl, ?_, ?_⟩
  · rw [hset]
    rfl
  · rw [hset]
    simp [mget]

/-! ## Claim C10 -/

/-- Claim C10: over JS-nullable values, a stored `null` is indistinguishable
from absence at the public interface — for an unexpired entry whose stored
value is `null`, `get` observes `null` and `has` returns `false`, exactly as
for a key that was never stored. -/
theorem claim_C10_stored_null (c : InMemoryCache (Option Nat))
    (k k2 : String) (now exp : Nat)
    (hstored : mget c.store k = some ⟨none, exp⟩) (hlive : ¬now > exp)
    (habsent : mget c.store k2 = none) :
    c.jsGet k now = none ∧ c.jsHas k now = false ∧
    c.jsGet k2 now = none ∧ c.jsHas k2 now = false := by
  have h1 : c.jsGet k now = none := by
    unfold InMemoryCache.jsGet InMemoryCache.get
    rw [hstored]
    dsimp only
    rw [if_neg hlive]
    rfl
  have h2 : c.jsGet k2 now = none := by
    unfold InMemoryCache.jsGet InMemoryCache.get
    rw [habsent]
    rfl
  refine ⟨h1, ?_, h2, ?_⟩
  · unfold InMemoryCache.jsHas
    rw [h1]
    rfl
  · unfold InMemoryCache.jsHas
    rw [h2]
    rfl

/-- Claim C10, witness: a cache holding `null` under `"k"` with expiry 100,
read at time 5; `"x"` was never stored. -/
theorem claim_C10_witness :
    InMemoryCache.jsGet ⟨[("k", ⟨none, 100⟩)], 1000⟩ "k" 5 = none ∧
    InMemoryCache.jsHas ⟨[("k", ⟨none, 100⟩)], 1000⟩ "k" 5 = false ∧
    InMemoryCache.jsGet ⟨[("k", ⟨none, 100⟩)], 1000⟩ "x" 5 = none ∧
    InMemoryCache.jsHas ⟨[("k", ⟨none, 100⟩)], 1000⟩ "x" 5 = false :=
  claim_C10_stored_null ⟨[("k", ⟨none, 100⟩)], 1000⟩ "k" "x" 5 100
    rfl (by decide) rfl

/-! ## Evaluation lemmas for the rate limiter -/

theorem isAllowed_fresh (limits : List (String × RateLimitEntry))
    (cfg : RateLimitConfig) (ident : String) (now : Nat)
    (hnone : mget limits ident = none) (hmax : 1 ≤ cfg.maxRequests) :
    RateLimiter.isAllowed ⟨limits, cfg⟩ ident now =
      (true, ⟨mset limits ident ⟨[now], now⟩, cfg⟩) := by
  unfold RateLimiter.isAllowed
  dsimp only
  rw [hnone]
  dsimp only
  simp only [List.filter_nil, List.length_nil]
  rw [if_neg (by omega)]
  rfl

theorem isAllowed_reset (limits : List (String × RateLimitEntry))
    (cfg : RateLimitConfig) (ident : String) (now : Nat) (e : RateLimitEntry)
    (hget : mget limits ident = some e)
    (hres : now - e.lastReset > cfg.windowMs) (hmax : 1 ≤ cfg.maxRequests) :
    RateLimiter.isAllowed ⟨limits, cfg⟩ ident now =
      (true, ⟨mset limits ident ⟨[now], now⟩, cfg⟩) := by
  unfold RateLimiter.isAllowed
  dsimp only
  rw [hget]
  dsimp only
  rw [if_pos hres]
  dsimp only
  simp only [List.filter_nil, List.length_nil]
  rw [if_neg (by omega)]
  rfl

theorem isAllowed_grant (limits : List (String × RateLimitEntry))
    (cfg : RateLimitConfig) (ident : String) (now : Nat) (e : RateLimitEntry)
    (hget : mget limits ident = some e)
    (hres : ¬now - e.lastReset > cfg.windowMs)
    (hkeep : e.requests.filter (fun t => decide (now - t < cfg.windowMs)) =
      e.requests)
    (hlen : e.requests.length < cfg.maxRequests) :
    RateLimiter.isAllowed ⟨limits, cfg⟩ ident now =
      (true, ⟨mset limits ident ⟨e.requests ++ [now], e.lastReset⟩, cfg⟩) := by
  unfold RateLimiter.isAllowed
  dsimp only
  rw [hget]
  dsimp only
  rw [if_neg hres]
  rw [hkeep]
  rw [if_neg (by omega)]

theorem isAllowed_deny (limits : List (String × RateLimitEntry))
    (cfg : RateLimitConfig) (ident : String) (now : Nat) (e : RateLimitEntry)
    (hget : mget limits ident = some e)
    (hres : ¬now - e.lastReset > cfg.windowMs)
    (hkeep : e.requests.filter (fun t => decide (now - t < cfg.windowMs)) =
      e.requests)
    (hlen : e.requests.length ≥ cfg.maxRequests) :
    RateLimiter.isAllowed ⟨limits, cfg⟩ ident now =
      (false, ⟨mset limits ident ⟨e.requests, e.lastReset⟩, cfg⟩) := by
  unfold RateLimiter.isAllowed
  dsimp only
  rw [hget]
  dsimp only
  rw [if_neg hres]
  rw [hkeep]
  rw [if_pos hlen]

/-! ## Claim C5 -/

/-- Claim C5: with `maxRequests = 3` and `windowMs = 1000`, four `isAllowed`
calls for the same identifier at monotone times inside 1000 ms of the first
return `true, true, true, false` (the denied call recording nothing), and a
fifth call more than 1000 ms after the first resets the window and returns
`true`.  The intermediate limiter states are pinned down exactly. -/
theorem claim_C5_sliding_window (t0 t1 t2 t3 t4 : Nat) (aFlag : Bool)
    (h01 : t0 ≤ t1) (h12 : t1 ≤ t2) (h23 : t2 ≤ t3) (h34 : t3 ≤ t4)
    (hwin : t3 < t0 + 1000) (hafter : t0 + 1000 < t4) :
    RateLimiter.isAllowed ⟨[], ⟨1000, 3, aFlag⟩⟩ "id" t0 =
      (true, ⟨[("id", ⟨[t0], t0⟩)], ⟨1000, 3, aFlag⟩⟩) ∧
    RateLimiter.isAllowed ⟨[("id", ⟨[t0], t0⟩)], ⟨1000, 3, aFlag⟩⟩ "id" t1 =
      (true, ⟨[("id", ⟨[t0, t1], t0⟩)], ⟨1000, 3, aFlag⟩⟩) ∧
    RateLimiter.isAllowed ⟨[("id", ⟨[t0, t1], t0⟩)], ⟨1000, 3, aFlag⟩⟩ "id" t2 =
      (true, ⟨[("id", ⟨[t0, t1, t2], t0⟩)], ⟨1000, 3, aFlag⟩⟩) ∧
    RateLimiter.isAllowed ⟨[("id", ⟨[t0, t1, t2], t0⟩)], ⟨1000, 3, aFlag⟩⟩ "id" t3 =
      (false, ⟨[("id", ⟨[t0, t1, t2], t0⟩)], ⟨1000, 3, aFlag⟩⟩) ∧
    RateLimiter.isAllowed ⟨[("id", ⟨[t0, t1, t2], t0⟩)], ⟨1000, 3, aFlag⟩⟩ "id" t4 =
      (true, ⟨[("id", ⟨[t4], t4⟩)], ⟨1000, 3, aFlag⟩⟩) := by
  have hkeep1 : List.filter (fun t => decide (t1 - t < (1000 : Nat))) [t0] = [t0] := by
    simp only [List.filter_eq_self, List.mem_singleton]
    intro a ha
    subst ha
    simp only [decide_eq_true_eq]
    omega
  have hkeep2 : List.filter (fun t => decide (t2 - t < (1000 : Nat))) [t0, t1] = [t0, t1] := by
    simp only [List.filter_eq_self, List.mem_cons, List.mem_singleton]
    intro a ha
    simp only [decide_eq_true_eq]
    rcases ha with h | h | h
    · omega
    · omega
    · simp at h
  have hkeep3 : List.filter (fun t => decide (t3 - t < (1000 : Nat))) [t0, t1, t2] = [t0, t1, t2] := by
    simp only [List.filter_eq_self, List.mem_cons, List.mem_singleton]
    intro a ha
    simp only [decide_eq_true_eq]
    rcases ha with h | h | h | h
    · omega
    · omega
    · omega
    · simp at h
  refine ⟨?_, ?_, ?_, ?_, ?_⟩
  · rw [isAllowed_fresh [] ⟨1000, 3, aFlag⟩ "id" t0 rfl (by dsimp only; omega)]
    rfl
  · rw [isAllowed_grant [("id", ⟨[t0], t0⟩)] ⟨1000, 3, aFlag⟩ "id" t1 ⟨[t0], t0⟩
      (by simp [mget]) (by dsimp only; omega) hkeep1 (by simp only [List.length_cons, List.length_nil]; omega)]
    rfl
  · rw [isAllowed_grant [("id", ⟨[t0, t1], t0⟩)] ⟨1000, 3, aFlag⟩ "id" t2 ⟨[t0, t1], t0⟩
      (by simp [mget]) (by dsimp only; omega) hkeep2 (by simp only [List.length_cons, List.length_nil]; omega)]
    rfl
  · rw [isAllowed_deny [("id", ⟨[t0, t1, t2], t0⟩)] ⟨1000, 3, aFlag⟩ "id" t3 ⟨[t0, t1, t2], t0⟩
      (by simp [mget]) (by dsimp only; omega) hkeep3 (by simp only [List.length_cons, List.length_nil]; omega)]
    rfl
  · rw [isAllowed_reset [("id", ⟨[t0, t1, t2], t0⟩)] ⟨1000, 3, aFlag⟩ "id" t4 ⟨[t0, t1, t2], t0⟩
      (by simp [mget]) (by dsimp only; omega) (by dsimp only; omega)]
    rfl

/-- Claim C5, witness: concrete times 0, 100, 200, 300 and 1001. -/
theorem claim_C5_witness :
    RateLimiter.isAllowed ⟨[], ⟨1000, 3, false⟩⟩ "id" 0 =
      (true, ⟨[("id", ⟨[0], 0⟩)], ⟨1000, 3, false⟩⟩) ∧
    RateLimiter.isAllowed ⟨[("id", ⟨[0], 0⟩)], ⟨1000, 3, false⟩⟩ "id" 100 =
      (true, ⟨[("id", ⟨[0, 100], 0⟩)], ⟨1000, 3, false⟩⟩) ∧
    RateLimiter.isAllowed ⟨[("id", ⟨[0, 100], 0⟩)], ⟨1000, 3, false⟩⟩ "id" 200 =
      (true, ⟨[("id", ⟨[0, 100, 200], 0⟩)], ⟨1000, 3, false⟩⟩) ∧
    RateLimiter.isAllowed ⟨[("id", ⟨[0, 100, 200], 0⟩)], ⟨1000, 3, false⟩⟩ "id" 300 =
      (false, ⟨[("id", ⟨[0, 100, 200], 0⟩)], ⟨1000, 3, false⟩⟩) ∧
    RateLimiter.isAllowed ⟨[("id", ⟨[0, 100, 200], 0⟩)], ⟨1000, 3, false⟩⟩ "id" 1001 =
      (true, ⟨[("id", ⟨[1001], 1001⟩)], ⟨1000, 3, false⟩⟩) :=
  claim_C5_sliding_window 0 100 200 300 1001 false (by omega) (by omega)
    (by omega) (by omega) (by omega) (by omega)

/-! ## Claim C7 -/

/-- Claim C7, counterexample: with `maxRequests = 0` the first-ever check
for an identifier is denied — the empty filtered window already has
`0 >= maxRequests` — so the first check does *not* succeed regardless of the
limiter's configuration. -/
theorem claim_C7_counterexample :
    ((⟨[], ⟨1000, 0, false⟩⟩ : RateLimiter).isAllowed "u" 5).1 = false := by
  decide

/-- Claim C7 (amended): for every identifier with no tracked entry, the
first `isAllowed` call returns `true` for every configuration with
`maxRequests ≥ 1`. -/
theorem claim_C7_first_check_allowed (cfg : RateLimitConfig)
    (limits : List (String × RateLimitEntry)) (ident : String) (now : Nat)
    (hnone : mget limits ident = none) (hmax : 1 ≤ cfg.maxRequests) :
    (RateLimiter.isAllowed ⟨limits, cfg⟩ ident now).1 = true := by
  rw [isAllowed_fresh limits cfg ident now hnone hmax]

/-- Claim C7, witness: fresh limiter with `maxRequests = 3` (and the unused
`adaptive` flag set), first check at time 7. -/
theorem claim_C7_witness :
    ((⟨[], ⟨1000, 3, true⟩⟩ : RateLimiter).isAllowed "u" 7).1 = true :=
  claim_C7_first_check_allowed ⟨1000, 3, true⟩ [] "u" 7 rfl (by decide)

end SpectX
